import Mathlib

/-!
Verification development for the SnowGlass interactive installation
(`src/components/SnowGlass.tsx`).  The per-frame fog/wipe logic, the
tracker result handlers, the snow particle system and the resize routine
are embedded as pure functions over `ℚ`; canvas drawing is represented by
explicit lists of drawing operations.
-/

namespace SnowGlassModel

/-- A 2D point (`Point {x, y}` from `src/types`), over `ℚ`. -/
structure Pt where
  x : ℚ
  y : ℚ
deriving DecidableEq

/-- Constants from `SnowGlass.tsx` lines 31-34. -/
def FOG_OPACITY_LIMIT : ℚ := 17/20

def SMOOTHING_FACTOR : ℚ := 3/20

def WIPE_DELAY_MS : ℚ := 1000

def SNOW_COUNT : ℕ := 60

/-- Canvas composite operation used on the fog canvas. -/
inductive CompOp where
  | sourceOver
  | destinationOut
deriving DecidableEq

/-- A frost deposit drawn on the fog canvas (lines 179-189): radial
gradient centered `(x, y)` of radius `radius`, color stops at offsets
0 / 0.6 / 1 with alphas `a0` / `a06` / 0, composite `source-over`. -/
structure DepositOp where
  x : ℚ
  y : ℚ
  radius : ℚ
  a0 : ℚ
  a06 : ℚ
  comp : CompOp
deriving DecidableEq

/-- A wipe (erase) drawn on the fog canvas (lines 209-219): radial
gradient from `inner` (= 0.2 * radius) to `radius`, alpha stops 1 / 0.4 / 0
at offsets 0 / 0.8 / 1, composite `destination-out`. -/
structure WipeOp where
  x : ℚ
  y : ℚ
  radius : ℚ
  inner : ℚ
  a0 : ℚ
  a08 : ℚ
  a1 : ℚ
  comp : CompOp
deriving DecidableEq

/-- One drawing operation on the persistent fog canvas. -/
inductive FogOp where
  | deposit : DepositOp → FogOp
  | erase : WipeOp → FogOp
deriving DecidableEq

def isDeposit : FogOp → Bool
  | .deposit _ => true
  | .erase _ => false

def isErase : FogOp → Bool
  | .deposit _ => false
  | .erase _ => true

/-- The deposit operations of a frame's fog-op list. -/
def deposits (ops : List FogOp) : List FogOp := ops.filter isDeposit

/-- The erase operations of a frame's fog-op list. -/
def erases (ops : List FogOp) : List FogOp := ops.filter isErase

/-- Whether a fog-erase call occurs in a frame's fog-op list. -/
def eraseFired (ops : List FogOp) : Bool := ops.any isErase

/-- The `wipe` closure of lines 209-220: fixed radius 45, inner gradient
radius `45 * 0.2`, stops `1 / 0.4 / 0`, composite `destination-out`. -/
def mkWipe (wx wy : ℚ) : FogOp :=
  .erase { x := wx, y := wy, radius := 45, inner := 45 * (1/5),
           a0 := 1, a08 := 2/5, a1 := 0, comp := .destinationOut }

/-- Inputs read by one run of `animate` (lines 148-265) that the fog
accumulation / hand-wiping sections consume: canvas size, the current
`performance.now()` clock, the tracker-written refs and the symmetry
prop. -/
structure FrameIn where
  width : ℚ
  height : ℚ
  now : ℚ
  breathIntensity : ℚ
  isBreathingManual : Bool
  mouthPos : Pt
  indexTipPos : Option Pt
  isSymmetry : Bool

/-- The mutable wipe-gating state surviving across frames:
`handPresenceTime` (the source uses `0` as the "unset" sentinel) and
`smoothedIndexTip`. -/
structure WipeState where
  handPresenceTime : ℚ
  smoothedIndexTip : Option Pt
deriving DecidableEq

/-- Initial wipe state (lines 24-25): timer unset (0), no smoothed tip. -/
def initWipeState : WipeState := ⟨0, none⟩

/-- Initial mouth position ref (line 22): normalized (0.5, 0.5). -/
def initMouthPos : Pt := ⟨1/2, 1/2⟩

/-- Initial breath intensity state (line 17): 0. -/
def initBreathIntensity : ℚ := 0

/-- Effective breath intensity (line 173):
`max(breathIntensity, isBreathingManual ? 0.8 : 0)`. -/
def effectiveIntensity (inp : FrameIn) : ℚ :=
  max inp.breathIntensity (if inp.isBreathingManual then 4/5 else 0)

/-- One exponential-smoothing update (lines 205-206):
`smoothed += (target - smoothed) * SMOOTHING_FACTOR`. -/
def smoothStep (target s : ℚ) : ℚ := s + (target - s) * SMOOTHING_FACTOR

/-- Section 3 of `animate` (fog accumulation, lines 172-190): the frost
deposit drawn this frame — one radial-gradient disc when the effective
intensity exceeds the 0.1 dead-zone, none otherwise. -/
def depositList (inp : FrameIn) : List FogOp :=
  let eff := effectiveIntensity inp
  if eff > 1/10 then
    [ .deposit { x := (1 - inp.mouthPos.x) * inp.width,
                 y := inp.mouthPos.y * inp.height,
                 radius := 100 + eff * 150,
                 a0 := eff * (1/25),
                 a06 := eff * (1/25) * (2/5),
                 comp := .sourceOver } ]
  else []

/-- Lines 199-207: the mirrored pixel-space target of a raw fingertip. -/
def targetOf (inp : FrameIn) (tip : Pt) : Pt :=
  ⟨(1 - tip.x) * inp.width, tip.y * inp.height⟩

/-- Lines 202-207: smoothing toward the target — initialize exactly to
the target when no prior smoothed value exists, otherwise one
`smoothStep` per coordinate. -/
def smoothedNext (prev : Option Pt) (target : Pt) : Pt :=
  match prev with
  | none => target
  | some s0 => ⟨smoothStep target.x s0.x, smoothStep target.y s0.y⟩

/-- Lines 222-225: the erase calls of one frame — always one at the
smoothed position, plus a horizontally mirrored one when symmetry is
enabled. -/
def wipeList (inp : FrameIn) (s : Pt) : List FogOp :=
  mkWipe s.x s.y ::
    (if inp.isSymmetry then [mkWipe (inp.width - s.x) s.y] else [])

/-- Sections 3 (fog accumulation, lines 172-190) and 4 (hand wiping,
lines 192-229) of `animate`, as a pure step: given the frame inputs and
the current wipe state, return the new wipe state and the list of fog
canvas operations of this frame.

Note: when `indexTipPos` is absent, the source's hands handler (lines
100-105) has already reset `handPresenceTime` to 0 in the same event that
cleared `indexTipPos`, and `animate` (line 228) clears
`smoothedIndexTip`; the absent branch here performs both, which is the
exact joint behavior (the two fields are only ever cleared together). -/
def animateFog (inp : FrameIn) (st : WipeState) : WipeState × List FogOp :=
  match inp.indexTipPos with
  | some tip =>
      let hpt := if st.handPresenceTime = 0 then inp.now else st.handPresenceTime
      let elapsed := inp.now - hpt
      if elapsed > WIPE_DELAY_MS then
        let s := smoothedNext st.smoothedIndexTip (targetOf inp tip)
        (⟨hpt, some s⟩, depositList inp ++ wipeList inp s)
      else
        (⟨hpt, st.smoothedIndexTip⟩, depositList inp)
  | none => (⟨0, none⟩, depositList inp)

/-- A sequence of frames where the fingertip is present throughout. -/
def presentTrace (ps : List (ℚ × Pt)) : List (ℚ × Option Pt) :=
  ps.map (fun q => (q.1, some q.2))

/-- Run the animation loop's fog/wipe step over a sequence of frames,
each given as (clock value, raw fingertip), recording for each frame
whether a fog-erase call occurred. -/
def runWipe (e : FrameIn) (st : WipeState) : List (ℚ × Option Pt) → List Bool
  | [] => []
  | (t, tip) :: rest =>
      let r := animateFog { e with now := t, indexTipPos := tip } st
      eraseFired r.2 :: runWipe e r.1 rest

lemma erases_depositList (inp : FrameIn) : erases (depositList inp) = [] := by
  by_cases h : effectiveIntensity inp > 1/10 <;>
    simp [depositList, h, erases, isErase]

lemma deposits_depositList (inp : FrameIn) :
    deposits (depositList inp) = depositList inp := by
  by_cases h : effectiveIntensity inp > 1/10 <;>
    simp [depositList, h, deposits, isDeposit]

lemma eraseFired_depositList (inp : FrameIn) :
    eraseFired (depositList inp) = false := by
  by_cases h : effectiveIntensity inp > 1/10 <;>
    simp [depositList, h, eraseFired, isErase]

lemma deposits_wipeList (inp : FrameIn) (s : Pt) :
    deposits (wipeList inp s) = [] := by
  by_cases h : inp.isSymmetry <;>
    simp [wipeList, h, deposits, isDeposit, mkWipe]

lemma erases_wipeList (inp : FrameIn) (s : Pt) :
    erases (wipeList inp s) = wipeList inp s := by
  by_cases h : inp.isSymmetry <;>
    simp [wipeList, h, erases, isErase, mkWipe]

lemma eraseFired_wipeList (inp : FrameIn) (s : Pt) :
    eraseFired (wipeList inp s) = true := by
  simp [wipeList, eraseFired, isErase, mkWipe]

/-- On a frame with the fingertip present and the presence timer already
armed (nonzero), the timer is left unchanged and an erase fires exactly
when more than `WIPE_DELAY_MS` has elapsed since it was armed. -/
lemma animateFog_present (inp : FrameIn) (p : Pt) (st : WipeState)
    (htip : inp.indexTipPos = some p) (hh : st.handPresenceTime ≠ 0) :
    (animateFog inp st).1.handPresenceTime = st.handPresenceTime ∧
    eraseFired (animateFog inp st).2
      = decide (WIPE_DELAY_MS < inp.now - st.handPresenceTime) := by
  by_cases hg : WIPE_DELAY_MS < inp.now - st.handPresenceTime
  · simp [animateFog, htip, hh, hg, eraseFired, List.any_append,
      eraseFired_depositList, eraseFired_wipeList, wipeList, isErase, mkWipe]
  · simp [animateFog, htip, hh, hg, eraseFired_depositList]

/-- On a frame with the fingertip absent, the wipe state resets to its
initial value and no erase fires. -/
lemma animateFog_absent (inp : FrameIn) (st : WipeState)
    (htip : inp.indexTipPos = none) :
    (animateFog inp st).1 = initWipeState ∧
    eraseFired (animateFog inp st).2 = false := by
  simp [animateFog, htip, initWipeState, eraseFired_depositList]

lemma runWipe_present_aux (e : FrameIn) (t₀ : ℚ) (h₀ : t₀ ≠ 0) :
    ∀ (ps : List (ℚ × Pt)) (st : WipeState), st.handPresenceTime = t₀ →
      runWipe e st (presentTrace ps)
        = ps.map (fun q => decide (WIPE_DELAY_MS < q.1 - t₀))
  | [], _, _ => rfl
  | (t, p) :: ps, st, hst => by
      have h := animateFog_present { e with now := t, indexTipPos := some p } p st
        rfl (hst ▸ h₀)
      simp only [presentTrace, List.map_cons, runWipe]
      rw [h.2, hst]
      exact congrArg _ (runWipe_present_aux e t₀ h₀ ps _ (h.1.trans hst))

/-- The first frame with a fingertip present, starting from the initial
wipe state: the timer arms to the current clock value and no erase can
fire (elapsed is 0). -/
lemma animateFog_first (inp : FrameIn) (p : Pt)
    (htip : inp.indexTipPos = some p) :
    animateFog inp initWipeState = (⟨inp.now, none⟩, depositList inp) := by
  norm_num [animateFog, htip, initWipeState, WIPE_DELAY_MS]

/-- A concrete environment for trace runs: 1920x1080 canvas, no breath,
no manual override, mouth at its initial value, symmetry off. -/
def traceEnv : FrameIn :=
  ⟨1920, 1080, 0, 0, false, initMouthPos, none, false⟩

/-- C1 (amended): wipe gating.  (1) For a fingertip continuously present
over frames whose first clock value `t₀` is nonzero, the presence timer
arms to `t₀` at the first frame and an erase fires on exactly the frames
whose clock value `t` satisfies `t - t₀ > WIPE_DELAY_MS` (strictly more
than 1000ms of continuous presence — not `≥` as the claim states; and a
first frame at clock 0 would collide with the source's `0` "unset"
sentinel and fail to arm the timer at all).  (2) Any single frame with
the fingertip absent resets the wipe state to its initial value (timer
unset, no smoothed tip) and fires no erase, so the frames after a gap
behave exactly like a fresh start: by (1), the first erase after a gap
comes strictly later than 1000ms after the first post-gap frame. -/
theorem C1_wipe_gating :
    (∀ (e : FrameIn) (p : Pt) (ps : List (ℚ × Pt)) (t₀ : ℚ), t₀ ≠ 0 →
        runWipe e initWipeState (presentTrace ((t₀, p) :: ps))
          = ((t₀, p) :: ps).map (fun q => decide (WIPE_DELAY_MS < q.1 - t₀)))
    ∧ (∀ (e : FrameIn) (st : WipeState) (t : ℚ) (rest : List (ℚ × Option Pt)),
        runWipe e st ((t, none) :: rest)
          = false :: runWipe e initWipeState rest) := by
  constructor
  · intro e p ps t₀ h₀
    simp only [presentTrace, List.map_cons, runWipe]
    rw [animateFog_first _ p rfl]
    simp only [List.cons.injEq]
    refine ⟨?_, ?_⟩
    · have hgate : ¬ WIPE_DELAY_MS < t₀ - t₀ := by norm_num [WIPE_DELAY_MS]
      simp [eraseFired_depositList, hgate, WIPE_DELAY_MS]
    · exact runWipe_present_aux e t₀ h₀ ps ⟨t₀, none⟩ rfl
  · intro e st t rest
    have h := animateFog_absent { e with now := t, indexTipPos := none } st rfl
    simp only [runWipe]
    rw [h.1, h.2]

/-- C1 counterexample to the claim as stated: with the fingertip present
at a frame at t = 0ms and at a frame at t = 1000ms (1000ms of continuous
presence, so the claim demands an erase at the second frame), no erase
fires at either frame: the t = 0 frame stores `performance.now() = 0`
into the timer, which is the source's own "unset" sentinel, and even an
armed timer requires `elapsed > 1000` strictly. -/
theorem C1_counterexample :
    runWipe traceEnv initWipeState
        (presentTrace [((0 : ℚ), ⟨1/2, 1/2⟩), ((1000 : ℚ), ⟨1/2, 1/2⟩)])
      = [false, false] := by
  norm_num [runWipe, presentTrace, animateFog, initWipeState, traceEnv,
    WIPE_DELAY_MS, eraseFired, depositList, effectiveIntensity, initMouthPos,
    isErase]

/-- C1 witness: presence armed at t₀ = 500; the frame at t = 1501
(elapsed 1001 > 1000) erases, the arming frame does not. -/
theorem C1_wipe_gating_witness :
    runWipe traceEnv initWipeState
        (presentTrace [((500 : ℚ), ⟨1/2, 1/2⟩), ((1501 : ℚ), ⟨1/2, 1/2⟩)])
      = [false, true] := by
  have h := C1_wipe_gating.1 traceEnv ⟨1/2, 1/2⟩ [((1501 : ℚ), ⟨1/2, 1/2⟩)]
    500 (by norm_num)
  rw [h]
  norm_num [WIPE_DELAY_MS]

lemma deposits_append (a b : List FogOp) :
    deposits (a ++ b) = deposits a ++ deposits b := by
  simp [deposits]

lemma erases_append (a b : List FogOp) :
    erases (a ++ b) = erases a ++ erases b := by
  simp [erases]

/-- Every frame's deposit operations are exactly `depositList inp`,
whatever the wiping branch does. -/
lemma deposits_animateFog (inp : FrameIn) (st : WipeState) :
    deposits ((animateFog inp st).2) = depositList inp := by
  rcases htip : inp.indexTipPos with _ | tip
  · simp [animateFog, htip, deposits_depositList]
  · by_cases hg :
      inp.now - (if st.handPresenceTime = 0 then inp.now else st.handPresenceTime)
        > WIPE_DELAY_MS
    · simp [animateFog, htip, hg, deposits_append, deposits_depositList,
        deposits_wipeList]
    · simp [animateFog, htip, hg, deposits_depositList]

/-- C2: fog deposit.  On every frame, the effective intensity is
`max(breathIntensity, manual ? 0.8 : 0)`, and exactly one frost deposit
is drawn iff it exceeds the 0.1 dead-zone; the deposit is centered at
the horizontally mirrored mouth pixel position, with radius
`100 + eff*150`, center alpha `eff*0.04`, and `source-over`
compositing. -/
theorem C2_fog_deposit :
    ∀ (inp : FrameIn) (st : WipeState),
      effectiveIntensity inp
          = max inp.breathIntensity (if inp.isBreathingManual then 4/5 else 0) ∧
      deposits ((animateFog inp st).2)
        = (if effectiveIntensity inp > 1/10 then
            [ .deposit { x := (1 - inp.mouthPos.x) * inp.width,
                         y := inp.mouthPos.y * inp.height,
                         radius := 100 + effectiveIntensity inp * 150,
                         a0 := effectiveIntensity inp * (1/25),
                         a06 := effectiveIntensity inp * (1/25) * (2/5),
                         comp := .sourceOver } ]
          else []) := by
  intro inp st
  exact ⟨rfl, (deposits_animateFog inp st).trans rfl⟩

/-- C6: symmetry fan-out.  On a frame where the wipe gate passes, the
erase operations are exactly one erase at the smoothed position when
symmetry is off, and additionally a second erase — built by the same
`wipe` call, hence with identical radius and falloff — at the
horizontally mirrored x (`width - x`, same y) when symmetry is on. -/
theorem C6_symmetry_fanout :
    ∀ (inp : FrameIn) (p : Pt) (st : WipeState),
      inp.indexTipPos = some p →
      st.handPresenceTime ≠ 0 →
      WIPE_DELAY_MS < inp.now - st.handPresenceTime →
      erases ((animateFog inp st).2)
        = (if inp.isSymmetry then
            [ mkWipe (smoothedNext st.smoothedIndexTip (targetOf inp p)).x
                (smoothedNext st.smoothedIndexTip (targetOf inp p)).y,
              mkWipe
                (inp.width - (smoothedNext st.smoothedIndexTip (targetOf inp p)).x)
                (smoothedNext st.smoothedIndexTip (targetOf inp p)).y ]
          else
            [ mkWipe (smoothedNext st.smoothedIndexTip (targetOf inp p)).x
                (smoothedNext st.smoothedIndexTip (targetOf inp p)).y ]) := by
  intro inp p st htip hh hg
  have hw : erases ((animateFog inp st).2)
      = wipeList inp (smoothedNext st.smoothedIndexTip (targetOf inp p)) := by
    simp [animateFog, htip, hh, hg, erases_append, erases_depositList,
      erases_wipeList]
  rw [hw]
  by_cases hs : inp.isSymmetry <;> simp [wipeList, hs]

/-- A concrete frame input for witnesses: 800x600 canvas, clock 2000,
fingertip at normalized (1/4, 1/2), symmetry on. -/
def symEnv : FrameIn :=
  ⟨800, 600, 2000, 0, false, initMouthPos, some ⟨1/4, 1/2⟩, true⟩

/-- A concrete armed wipe state (timer 500, no smoothed tip yet). -/
def armedState : WipeState := ⟨500, none⟩

/-- C6 witness: with symmetry on, fingertip target (600, 300) (first
sample, so the smoothed position equals it), both erases fire, the
second at 800 - 600 = 200. -/
theorem C6_symmetry_fanout_witness :
    erases ((animateFog symEnv armedState).2)
      = [mkWipe 600 300, mkWipe 200 300] := by
  have h := C6_symmetry_fanout symEnv ⟨1/4, 1/2⟩ armedState rfl
    (by norm_num [armedState]) (by norm_num [symEnv, armedState, WIPE_DELAY_MS])
  rw [h]
  norm_num [symEnv, armedState, smoothedNext, targetOf]

/-- Iterated smoothing toward a constant target `t` from start `s`. -/
def smoothIter (t s : ℚ) : ℕ → ℚ
  | 0 => s
  | n + 1 => smoothStep t (smoothIter t s n)

/-- C4: fingertip smoothing.  (1) While erasing is active with a prior
smoothed value, each coordinate updates by
`smoothed += (target - smoothed) * 0.15` with the mirrored pixel target;
(2) with no prior smoothed value it initializes exactly to the target;
(3) the smoothed state is reset to absent whenever the raw fingertip is
absent; (4) under a constant target the error contracts by exactly 0.85
per step; (5) hence after 29 steps the error is at most 1% of the
initial error (0.85^29 < 0.01). -/
theorem C4_smoothing :
    (∀ (inp : FrameIn) (p : Pt) (st : WipeState) (s0 : Pt),
        inp.indexTipPos = some p →
        st.handPresenceTime ≠ 0 →
        WIPE_DELAY_MS < inp.now - st.handPresenceTime →
        st.smoothedIndexTip = some s0 →
        (animateFog inp st).1.smoothedIndexTip
          = some ⟨smoothStep ((1 - p.x) * inp.width) s0.x,
                  smoothStep (p.y * inp.height) s0.y⟩)
    ∧ (∀ (inp : FrameIn) (p : Pt) (st : WipeState),
        inp.indexTipPos = some p →
        st.handPresenceTime ≠ 0 →
        WIPE_DELAY_MS < inp.now - st.handPresenceTime →
        st.smoothedIndexTip = none →
        (animateFog inp st).1.smoothedIndexTip
          = some ⟨(1 - p.x) * inp.width, p.y * inp.height⟩)
    ∧ (∀ (inp : FrameIn) (st : WipeState),
        inp.indexTipPos = none →
        (animateFog inp st).1.smoothedIndexTip = none)
    ∧ (∀ (t s : ℚ) (n : ℕ),
        |t - smoothIter t s n| = (17/20) ^ n * |t - s|)
    ∧ (∀ t s : ℚ, |t - smoothIter t s 29| ≤ |t - s| / 100) := by
  have contract : ∀ (t s : ℚ) (n : ℕ),
      |t - smoothIter t s n| = (17/20) ^ n * |t - s| := by
    intro t s n
    induction n with
    | zero => simp [smoothIter]
    | succ n ih =>
        have hstep : t - smoothStep t (smoothIter t s n)
            = (t - smoothIter t s n) * (17/20) := by
          simp [smoothStep, SMOOTHING_FACTOR]
          ring
        calc |t - smoothIter t s (n + 1)|
            = |(t - smoothIter t s n) * (17/20)| := by rw [smoothIter, hstep]
          _ = |t - smoothIter t s n| * (17/20) := by
              rw [abs_mul]
              norm_num
          _ = (17/20) ^ (n + 1) * |t - s| := by rw [ih]; ring
  refine ⟨?_, ?_, ?_, contract, ?_⟩
  · intro inp p st s0 htip hh hg hsm
    simp [animateFog, htip, hh, hg, hsm, smoothedNext, targetOf]
  · intro inp p st htip hh hg hsm
    simp [animateFog, htip, hh, hg, hsm, smoothedNext, targetOf]
  · intro inp st htip
    simp [animateFog, htip]
  · intro t s
    rw [contract t s 29]
    have h29 : ((17:ℚ)/20) ^ 29 ≤ 1/100 := by norm_num
    have := mul_le_mul_of_nonneg_right h29 (abs_nonneg (t - s))
    linarith

/-- C4 witness: a frame of `symEnv` with a prior smoothed value (0, 0):
target (600, 300), update lands at (90, 45) = 0.15 * target; and the
29-step convergence bound at target 600 from start 0. -/
theorem C4_smoothing_witness :
    (animateFog symEnv ⟨500, some ⟨0, 0⟩⟩).1.smoothedIndexTip = some ⟨90, 45⟩
    ∧ |(600 : ℚ) - smoothIter 600 0 29| ≤ |(600 : ℚ) - 0| / 100 := by
  constructor
  · have h := C4_smoothing.1 symEnv ⟨1/4, 1/2⟩ ⟨500, some ⟨0, 0⟩⟩ ⟨0, 0⟩ rfl
      (by norm_num) (by norm_num [symEnv, WIPE_DELAY_MS]) rfl
    rw [h]
    norm_num [smoothStep, SMOOTHING_FACTOR, symEnv]
  · exact C4_smoothing.2.2.2.2 600 0

/-- Availability of the resources `animate` guards on (lines 148-152):
the main canvas ref, the video source, the main 2D context, the fog 2D
context. -/
structure AnimateGuards where
  canvasAvail : Bool
  videoAvail : Bool
  ctxAvail : Bool
  fctxAvail : Bool
deriving DecidableEq

/-- Control-flow skeleton of one `animate` invocation: line 149 returns
early when the canvas ref or video source is gone, line 152 returns
early when either 2D context is unavailable; only a run that reaches the
end of the body draws the frame and calls `requestAnimationFrame`
(line 264).  Result: (frame body drawn?, next frame scheduled?). -/
def animateControl (g : AnimateGuards) : Bool × Bool :=
  if !g.canvasAvail || !g.videoAvail then (false, false)
  else if !g.ctxAvail || !g.fctxAvail then (false, false)
  else (true, true)

/-- Whether one `animate` invocation draws the frame. -/
def animateDraws (g : AnimateGuards) : Bool := (animateControl g).1

/-- Whether one `animate` invocation schedules the next one. -/
def animateSchedulesNext (g : AnimateGuards) : Bool := (animateControl g).2

/-- C3 counterexample to the claim as stated: when the main 2D context
is unavailable (all else available), `animate` returns at line 152
before ever reaching the `requestAnimationFrame` call at line 264, so no
next render step is scheduled — the claim demands that it still be
scheduled.  Since `requestAnimationFrame` is one-shot, the loop
permanently terminates rather than retrying on the next refresh. -/
theorem C3_counterexample :
    animateSchedulesNext ⟨true, true, false, true⟩ = false := by
  decide

/-- C3 (amended): one `animate` invocation draws the frame and schedules
the next invocation iff the canvas ref, video source and both 2D
contexts are all available; on any guard failure the frame's drawing is
skipped AND no next invocation is scheduled, so the loop terminates
(rescheduling is unconditional only once the guards pass). -/
theorem C3_loop_continuation :
    ∀ g : AnimateGuards,
      animateDraws g
          = (g.canvasAvail && g.videoAvail && g.ctxAvail && g.fctxAvail) ∧
      animateSchedulesNext g = animateDraws g := by
  intro g
  obtain ⟨c, v, x, f⟩ := g
  cases c <;> cases v <;> cases x <;> cases f <;> exact ⟨rfl, rfl⟩

/-- Squared Euclidean distance between two landmark points (line 114
computes its square root). -/
def distSq (a b : Pt) : ℚ := (a.x - b.x) ^ 2 + (a.y - b.y) ^ 2

/-- The breath-intensity mapping of line 117:
`min(max((dist - 0.01) * 15, 0), 1)`. -/
def intensityFromDist (d : ℚ) : ℚ := min (max ((d - 1/100) * 15) 0) 1

/-- The UI state written by the faceMesh handler: breath intensity and
the mouth-center ref. -/
structure FaceState where
  breathIntensity : ℚ
  mouthPos : Pt
deriving DecidableEq

/-- Initial face state: intensity 0 (line 17), mouth (0.5, 0.5)
(line 22). -/
def initFaceState : FaceState := ⟨initBreathIntensity, initMouthPos⟩

/-- The faceMesh results handler (lines 108-128).  A result is `some
(p13, p14)` (the inner-lip landmarks) or `none` (no face).  The source
computes `dist` with `Math.sqrt`; the handler takes that distance
`lipDist` as an explicit argument, characterized in theorems by
`0 ≤ lipDist` and `lipDist ^ 2 = distSq p13 p14`. -/
def faceStep (res : Option (Pt × Pt)) (lipDist : ℚ) (st : FaceState) :
    FaceState :=
  match res with
  | some lm =>
      { breathIntensity := intensityFromDist lipDist,
        mouthPos := ⟨(lm.1.x + lm.2.x) / 2, (lm.1.y + lm.2.y) / 2⟩ }
  | none => { st with breathIntensity := 0 }

/-- C5: breath intensity mapping.  For every face result the handler
sets intensity to `clamp((d - 0.01) * 15, 0, 1)` of the lip distance
`d`; the mapping is monotonically non-decreasing; d = 0.01 gives 0,
d = 0.04 gives 0.45, and every d ≥ 23/300 ≈ 0.0767 (so in particular
d ≥ 0.077) saturates at 1. -/
theorem C5_breath_intensity :
    (∀ (u l : Pt) (d : ℚ) (st : FaceState), 0 ≤ d → d ^ 2 = distSq u l →
        (faceStep (some (u, l)) d st).breathIntensity
          = min (max ((d - 1/100) * 15) 0) 1)
    ∧ (∀ d₁ d₂ : ℚ, d₁ ≤ d₂ → intensityFromDist d₁ ≤ intensityFromDist d₂)
    ∧ intensityFromDist (1/100) = 0
    ∧ intensityFromDist (1/25) = 9/20
    ∧ (∀ d : ℚ, 23/300 ≤ d → intensityFromDist d = 1) := by
  refine ⟨?_, ?_, ?_, ?_, ?_⟩
  · intro u l d st _ _
    rfl
  · intro d₁ d₂ h
    have hmul : (d₁ - 1/100) * 15 ≤ (d₂ - 1/100) * 15 := by nlinarith
    exact min_le_min (max_le_max hmul le_rfl) le_rfl
  · norm_num [intensityFromDist]
  · norm_num [intensityFromDist]
  · intro d hd
    have h1 : (1 : ℚ) ≤ (d - 1/100) * 15 := by nlinarith
    have h0 : (0 : ℚ) ≤ (d - 1/100) * 15 := le_trans zero_le_one h1
    rw [intensityFromDist, max_eq_left h0, min_eq_right h1]

/-- C5 witness: lips (0,0) and (0, 0.03) at distance d = 0.03
(d² = distSq), giving intensity 0.3; monotonicity at 0.01 ≤ 0.04; and
saturation at d = 0.077. -/
theorem C5_breath_intensity_witness :
    (faceStep (some (⟨0, 0⟩, ⟨0, 3/100⟩)) (3/100) initFaceState).breathIntensity
        = min (max (((3:ℚ)/100 - 1/100) * 15) 0) 1
    ∧ intensityFromDist (1/100) ≤ intensityFromDist (1/25)
    ∧ intensityFromDist (77/1000) = 1 := by
  refine ⟨?_, ?_, ?_⟩
  · exact C5_breath_intensity.1 ⟨0, 0⟩ ⟨0, 3/100⟩ (3/100) initFaceState
      (by norm_num) (by norm_num [distSq])
  · exact C5_breath_intensity.2.1 (1/100) (1/25) (by norm_num)
  · exact C5_breath_intensity.2.2.2.2 (77/1000) (by norm_num)

/-- C8: face-loss transition.  The instant a face result contains no
face, the handler sets breath intensity to 0 (no decay) and leaves the
mouth point exactly as it was. -/
theorem C8_face_loss :
    ∀ (st : FaceState) (d : ℚ),
      faceStep none d st = ⟨0, st.mouthPos⟩ := by
  intro st d
  rfl

/-- A `fillRect` on the fog canvas with an rgba fill style
(lines 278-279). -/
structure FillRectOp where
  x : ℚ
  y : ℚ
  w : ℚ
  h : ℚ
  red : ℕ
  green : ℕ
  blue : ℕ
  alpha : ℚ
deriving DecidableEq

/-- The `resize` handler (lines 267-284): it sets both canvas backing
sizes to the window inner size and, when the fog 2D context is
available, fills the whole fog surface with `rgba(200, 220, 240, 0.15)`.
It runs once directly at mount (line 283) and on every window `resize`
event (line 282).  Result: (new fog canvas size, fill operations). -/
def resizeFog (fctxAvail : Bool) (innerWidth innerHeight : ℚ) :
    (ℚ × ℚ) × List FillRectOp :=
  ((innerWidth, innerHeight),
   if fctxAvail then
     [⟨0, 0, innerWidth, innerHeight, 200, 220, 240, 3/20⟩]
   else [])

/-- C9: the fog surface is not blank at startup.  The resize routine —
invoked at mount and on every viewport resize — resizes the fog canvas
to the viewport and fills it entirely (from (0,0) with the full new
width and height) with rgba(200, 220, 240, 0.15), a strictly positive
alpha, so visible frost exists before any breath deposit. -/
theorem C9_initial_fog_fill :
    ∀ w h : ℚ,
      (resizeFog true w h).1 = (w, h) ∧
      (resizeFog true w h).2 = [⟨0, 0, w, h, 200, 220, 240, 3/20⟩] ∧
      (0 : ℚ) < 3/20 := by
  intro w h
  exact ⟨rfl, rfl, by norm_num⟩

/-- C10: manual breath before any face.  The mouth ref starts at
normalized (0.5, 0.5) and the tracked intensity at 0; a frame with the
manual override held therefore has effective intensity 0.8 and deposits
exactly one disc centered at the middle of the viewport (w/2, h/2), with
radius 220 and center alpha 0.032 — not suppressed. -/
theorem C10_manual_breath_center :
    initMouthPos = ⟨1/2, 1/2⟩ ∧ initBreathIntensity = 0 ∧
    ∀ (w h now : ℚ) (tip : Option Pt) (sym : Bool) (st : WipeState),
      deposits ((animateFog
          ⟨w, h, now, initBreathIntensity, true, initMouthPos, tip, sym⟩ st).2)
        = [ .deposit { x := w / 2, y := h / 2, radius := 220, a0 := 4/125,
                       a06 := 8/625, comp := .sourceOver } ] := by
  refine ⟨rfl, rfl, ?_⟩
  intro w h now tip sym st
  rw [deposits_animateFog]
  norm_num [depositList, effectiveIntensity, initMouthPos, initBreathIntensity]
  ring_nf
  norm_num

/-- A snow particle (`Snowflake` from `src/types`). -/
structure Snowflake where
  x : ℚ
  y : ℚ
  size : ℚ
  speed : ℚ
  opacity : ℚ
  wind : ℚ
deriving DecidableEq

/-- One particle as initialized at lines 40-47, from six uniform draws
`r1..r6 ∈ [0,1)`: position over a fixed 1920x1080 extent, size 1-4,
speed 0.5-2, opacity 0.2-0.7, wind -0.25-0.25. -/
def mkSnowflake (r1 r2 r3 r4 r5 r6 : ℚ) : Snowflake :=
  { x := r1 * 1920, y := r2 * 1080, size := 1 + r3 * 3,
    speed := 1/2 + r4 * (3/2), opacity := 1/5 + r5 * (1/2),
    wind := (r6 - 1/2) * (1/2) }

/-- The init effect's loop (lines 38-49): `SNOW_COUNT` particles, where
`rand n` is the value of the n-th `Math.random()` call. -/
def initSnow (rand : ℕ → ℚ) : List Snowflake :=
  (List.range SNOW_COUNT).map fun i =>
    mkSnowflake (rand (6*i)) (rand (6*i+1)) (rand (6*i+2)) (rand (6*i+3))
      (rand (6*i+4)) (rand (6*i+5))

/-- One per-frame advance of one particle (lines 245-250):
`y += speed; x += wind;` then if the new y exceeds the viewport height,
reset y to -10 and re-randomize x across the current viewport width
(overwriting the wind drift), leaving all other fields unchanged. -/
def advanceFlake (height width rx : ℚ) (s : Snowflake) : Snowflake :=
  let y1 := s.y + s.speed
  let x1 := s.x + s.wind
  if y1 > height then { s with y := -10, x := rx * width }
  else { s with y := y1, x := x1 }

/-- Advance every particle of the list once, consuming one random value
per particle position in the list. -/
def advanceAll (height width : ℚ) (rxs : ℕ → ℚ) :
    List Snowflake → List Snowflake
  | [] => []
  | s :: rest =>
      advanceFlake height width (rxs 0) s ::
        advanceAll height width (fun n => rxs (n + 1)) rest

/-- The transient y value a particle reaches during an advance step,
just before the wrap-around check compares it to the viewport height. -/
def preWrapY (s : Snowflake) : ℚ := s.y + s.speed

lemma advanceAll_length (height width : ℚ) :
    ∀ (rxs : ℕ → ℚ) (l : List Snowflake),
      (advanceAll height width rxs l).length = l.length
  | _, [] => rfl
  | rxs, _ :: rest => by
      simp [advanceAll, advanceAll_length height width (fun n => rxs (n + 1)) rest]

/-- A concrete random source in [0,1): the n-th `Math.random()` call
returns 25/27 when n ≡ 1 (mod 6) (the y draw), 1/3 when n ≡ 3 (the
speed draw), 1/2 otherwise. -/
def cexRand : ℕ → ℚ := fun n =>
  if n % 6 = 1 then 25/27 else if n % 6 = 3 then 1/3 else 1/2

/-- C7 counterexample to the claim as stated: the particle set is seeded
across a fixed 1920x1080 extent independent of the actual viewport, so
with a 600-pixel-high viewport the very first particle of this
initialization (seeded at y = 1000, speed 1; the random source used
takes only the values 1/2, 25/27 and 1/3, all within [0,1)) reaches the
pre-wrap transient y = 1001 on its first advance step, exceeding the
viewport height by 401 — far more than one frame's speed — before the
wrap resets it. -/
theorem C7_counterexample :
    ((0 ≤ cexRand 0 ∧ cexRand 0 ≤ 1) ∧ (0 ≤ cexRand 1 ∧ cexRand 1 ≤ 1)
      ∧ (0 ≤ cexRand 2 ∧ cexRand 2 ≤ 1) ∧ (0 ≤ cexRand 3 ∧ cexRand 3 ≤ 1)
      ∧ (0 ≤ cexRand 4 ∧ cexRand 4 ≤ 1) ∧ (0 ≤ cexRand 5 ∧ cexRand 5 ≤ 1))
    ∧ (initSnow cexRand).head? = some ⟨960, 1000, 5/2, 1, 9/20, 0⟩
    ∧ ¬ (preWrapY ⟨960, 1000, 5/2, 1, 9/20, 0⟩
          ≤ 600 + (Snowflake.speed ⟨960, 1000, 5/2, 1, 9/20, 0⟩)) := by
  refine ⟨?_, ?_, ?_⟩
  · norm_num [cexRand]
  · rw [initSnow, SNOW_COUNT, show (60:ℕ) = 59 + 1 from rfl,
      List.range_succ_eq_map]
    norm_num [cexRand, mkSnowflake]
  · norm_num [preWrapY]

/-- C7 (amended): particle invariants.  (1) Initialization creates
exactly `SNOW_COUNT = 60` particles and (2) advancing never changes the
count, so the set size is constant for the process lifetime.  (3) With
the random source in [0,1], every initialized particle has
0 ≤ size ≤ 4 and 0.2 ≤ opacity ≤ 0.7, and (4) an advance step never
changes size, speed, opacity or wind.  (5) When the transient y exceeds
the viewport height, the step resets y to -10 and re-randomizes only x
across the current viewport width.  (6) After any advance step y is at
most the viewport height (for any viewport height ≥ -10), so (7) from
the second step on — though not necessarily on the first step after
initialization, since seeding uses a fixed 1920x1080 extent — the
pre-wrap transient exceeds the viewport height by at most one frame's
speed. -/
theorem C7_particle_invariants :
    (∀ rand : ℕ → ℚ, (initSnow rand).length = 60)
    ∧ (∀ (height width : ℚ) (rxs : ℕ → ℚ) (l : List Snowflake),
        (advanceAll height width rxs l).length = l.length)
    ∧ (∀ rand : ℕ → ℚ, (∀ n, 0 ≤ rand n ∧ rand n ≤ 1) →
        ∀ s ∈ initSnow rand,
          0 ≤ s.size ∧ s.size ≤ 4 ∧ 1/5 ≤ s.opacity ∧ s.opacity ≤ 7/10)
    ∧ (∀ (height width rx : ℚ) (s : Snowflake),
        (advanceFlake height width rx s).size = s.size
        ∧ (advanceFlake height width rx s).speed = s.speed
        ∧ (advanceFlake height width rx s).opacity = s.opacity
        ∧ (advanceFlake height width rx s).wind = s.wind)
    ∧ (∀ (height width rx : ℚ) (s : Snowflake), preWrapY s > height →
        advanceFlake height width rx s = { s with y := -10, x := rx * width })
    ∧ (∀ (height width rx : ℚ) (s : Snowflake), -10 ≤ height →
        (advanceFlake height width rx s).y ≤ height)
    ∧ (∀ (height width rx : ℚ) (s : Snowflake), -10 ≤ height →
        preWrapY (advanceFlake height width rx s)
          ≤ height + (advanceFlake height width rx s).speed) := by
  refine ⟨?_, advanceAll_length, ?_, ?_, ?_, ?_, ?_⟩
  · intro rand
    simp [initSnow, SNOW_COUNT]
  · intro rand hr s hs
    simp only [initSnow, List.mem_map] at hs
    obtain ⟨i, -, rfl⟩ := hs
    obtain ⟨h30, h31⟩ := hr (6*i+2)
    obtain ⟨h50, h51⟩ := hr (6*i+4)
    simp only [mkSnowflake]
    refine ⟨by nlinarith, by nlinarith, by nlinarith, by nlinarith⟩
  · intro height width rx s
    by_cases hw : s.y + s.speed > height <;>
      simp [advanceFlake, hw]
  · intro height width rx s hwrap
    rw [advanceFlake]
    simp only [preWrapY] at hwrap
    rw [if_pos hwrap]
  · intro height width rx s hh
    by_cases hw : s.y + s.speed > height <;>
      simp [advanceFlake, hw] <;> linarith
  · intro height width rx s hh
    have hy : (advanceFlake height width rx s).y ≤ height := by
      by_cases hw : s.y + s.speed > height <;>
        simp [advanceFlake, hw] <;> linarith
    have hs : (advanceFlake height width rx s).speed = s.speed := by
      by_cases hw : s.y + s.speed > height <;> simp [advanceFlake, hw]
    simp only [preWrapY]
    linarith

/-- A uniform random source taking only the value 1/2. -/
def halfRand : ℕ → ℚ := fun _ => 1/2

/-- C7 witness: the all-1/2 particle (960, 540, size 5/2, speed 5/4,
opacity 9/20, wind 0) is in the initialized set and satisfies the size
and opacity bounds, and on a 500-pixel-high viewport its advance step
wraps it to y = -10 with x re-randomized across the 800-pixel width. -/
theorem C7_particle_invariants_witness :
    (0 ≤ (mkSnowflake (1/2) (1/2) (1/2) (1/2) (1/2) (1/2)).size
      ∧ (mkSnowflake (1/2) (1/2) (1/2) (1/2) (1/2) (1/2)).size ≤ 4
      ∧ 1/5 ≤ (mkSnowflake (1/2) (1/2) (1/2) (1/2) (1/2) (1/2)).opacity
      ∧ (mkSnowflake (1/2) (1/2) (1/2) (1/2) (1/2) (1/2)).opacity ≤ 7/10)
    ∧ advanceFlake 500 800 (1/2) (mkSnowflake (1/2) (1/2) (1/2) (1/2) (1/2) (1/2))
        = { mkSnowflake (1/2) (1/2) (1/2) (1/2) (1/2) (1/2) with
            y := -10, x := (1/2) * 800 } := by
  constructor
  · exact C7_particle_invariants.2.2.1 halfRand
      (fun n => ⟨by norm_num [halfRand], by norm_num [halfRand]⟩)
      (mkSnowflake (1/2) (1/2) (1/2) (1/2) (1/2) (1/2))
      (List.mem_map.mpr ⟨0, List.mem_range.mpr (by norm_num [SNOW_COUNT]), rfl⟩)
  · exact C7_particle_invariants.2.2.2.2.1 500 800 (1/2)
      (mkSnowflake (1/2) (1/2) (1/2) (1/2) (1/2) (1/2))
      (by norm_num [preWrapY, mkSnowflake])

end SnowGlassModel
